import Mathlib

/-!
Shallow embedding of the gpu-monitor repository's core
(src/utils.py and src/gpu_monitor_app.py) and proofs checking the
specification's claims against it.

Conventions:
* Python floats are modelled as rationals (ℚ); the claims under study are
  about control flow and exact comparisons, not rounding.
* A pynvml query that may raise NVMLError is modelled as an `Option`
  result (`none` = the query raised and the `except pynvml.NVMLError`
  branch runs).
* Python's division operator raises `ZeroDivisionError` exactly when the
  divisor is zero; it is embedded as `pyDiv` returning `Except`.
  Divisions by the nonzero constants `1024 ** 2` and `1000` cannot raise
  and are embedded as exact rational division.
-/

namespace GpuMonitor

/-- A Python runtime error relevant to the embedded code:
`ZeroDivisionError`. -/
inductive PyError where
  | zeroDivision
deriving DecidableEq

/-- Python's `/` operator on numbers: raises `ZeroDivisionError` when the
divisor is zero, otherwise exact division. -/
def pyDiv (a b : ℚ) : Except PyError ℚ :=
  if b = 0 then .error .zeroDivision else .ok (a / b)

/-- One entry of `stat['processes']` as built in `get_nvidia_stats`:
`{'pid': ..., 'used_memory': ..., 'type': 'C'/'G', 'name': ...}`. -/
structure Proc where
  pid : ℕ
  used_memory : ℚ
  kind : String
  name : String
deriving DecidableEq

/-- A raw process record returned by
`nvmlDeviceGetComputeRunningProcesses` / `...GraphicsRunningProcesses`. -/
structure RawProc where
  pid : ℕ
  usedGpuMemory : ℚ
deriving DecidableEq

/-- Result of `nvmlDeviceGetMemoryInfo` (byte counts). -/
structure MemInfo where
  total : ℚ
  used : ℚ
deriving DecidableEq

/-- Result of `nvmlDeviceGetUtilizationRates`. -/
structure UtilRates where
  gpu : ℚ
  memory : ℚ
deriving DecidableEq

/-- The outcomes of the per-device pynvml queries issued by
`get_nvidia_stats` for one device in one tick.  `none` means the query
raised `NVMLError`.  `procName` is the total function `get_process_name`
(utils.py line 129), which already fails closed to `"Unknown"`. -/
structure Queries where
  name : Option String
  mem : Option MemInfo
  util : Option UtilRates
  temp : Option ℚ
  power : Option (ℚ × ℚ)
  fan : Option ℚ
  clock : Option ℚ
  computeProcs : Option (List RawProc)
  graphicsProcs : Option (List RawProc)
  procName : ℕ → String

/-- The `stat` dictionary built by `get_nvidia_stats` for one device. -/
structure Stat where
  gpu_index : ℕ
  name : String
  memory_total : ℚ
  memory_used : ℚ
  memory_utilization : ℚ
  utilization : ℚ
  memory_utilization_rate : ℚ
  temperature : ℚ
  power_draw : ℚ
  power_limit : ℚ
  fan_speed : ℚ
  clock_speed : ℚ
  processes : List Proc
deriving DecidableEq

/-- The memory group of `get_nvidia_stats` (utils.py lines 57-63):
on a successful query the three fields are
`total / 2^20`, `used / 2^20`, `(used / total) * 100` — the division
`used / total` is Python `/` and raises when `total = 0`, and the raise
is NOT caught by the surrounding `except pynvml.NVMLError`.  On a failed
query all three fields are 0. -/
def memFields (q : Option MemInfo) : Except PyError (ℚ × ℚ × ℚ) :=
  match q with
  | none => .ok (0, 0, 0)
  | some m =>
    match pyDiv m.used m.total with
    | .error e => .error e
    | .ok mu => .ok (m.total / 1048576, m.used / 1048576, mu * 100)

/-- The process list of one device (utils.py lines 95-124): compute
processes then graphics processes, each with memory scaled by `2^20`,
then names resolved by `get_process_name`.  A failed process-list query
contributes nothing (`except: pass`). -/
def procsOf (q : Queries) : List Proc :=
  let comp := (q.computeProcs.getD []).map
    (fun p => Proc.mk p.pid (p.usedGpuMemory / 1048576) "C" "")
  let gfx := (q.graphicsProcs.getD []).map
    (fun p => Proc.mk p.pid (p.usedGpuMemory / 1048576) "G" "")
  (comp ++ gfx).map (fun pr => { pr with name := q.procName pr.pid })

/-- The body of the per-device loop of `get_nvidia_stats`
(utils.py lines 47-125): each metric group is queried independently and
a failed group yields its zero/"Unknown" sentinel; only the memory group
can raise (division by a zero total), which aborts the whole sample. -/
def deviceStat (i : ℕ) (q : Queries) : Except PyError Stat :=
  match memFields q.mem with
  | .error e => .error e
  | .ok mf => .ok
    { gpu_index := i
      name := q.name.getD "Unknown"
      memory_total := mf.1
      memory_used := mf.2.1
      memory_utilization := mf.2.2
      utilization := (q.util.map UtilRates.gpu).getD 0
      memory_utilization_rate := (q.util.map UtilRates.memory).getD 0
      temperature := q.temp.getD 0
      power_draw := (q.power.map (fun p => p.1 / 1000)).getD 0
      power_limit := (q.power.map (fun p => p.2 / 1000)).getD 0
      fan_speed := q.fan.getD 0
      clock_speed := q.clock.getD 0
      processes := procsOf q }

/-- The device loop of `get_nvidia_stats`, starting at index `n`: an
uncaught exception for one device aborts the whole list (the Python
loop raises out of the function). -/
def statsFrom (n : ℕ) : List Queries → Except PyError (List Stat)
  | [] => .ok []
  | q :: qs =>
    match deviceStat n q with
    | .error e => .error e
    | .ok st =>
      match statsFrom (n + 1) qs with
      | .error e => .error e
      | .ok rest => .ok (st :: rest)

/-- The function `get_nvidia_stats(device_count)` given the per-device query
outcomes. -/
def getNvidiaStats (qs : List Queries) : Except PyError (List Stat) :=
  statsFrom 0 qs

/-- The seven metric groups of `get_nvidia_stats` (the two process-list
queries are separate and cannot raise visible errors). -/
inductive Group where
  | nameG
  | memG
  | utilG
  | tempG
  | powerG
  | fanG
  | clockG
deriving DecidableEq

/-- Make the given metric group's query fail (raise `NVMLError`). -/
def failGroup (g : Group) (q : Queries) : Queries :=
  match g with
  | .nameG => { q with name := none }
  | .memG => { q with mem := none }
  | .utilG => { q with util := none }
  | .tempG => { q with temp := none }
  | .powerG => { q with power := none }
  | .fanG => { q with fan := none }
  | .clockG => { q with clock := none }

/-- The expected effect on a device's `stat` of exactly one metric
group's query failing: that group's fields become the zero/"Unknown"
sentinel, every other field keeps its value. -/
def sentinelAt (g : Group) (st : Stat) : Stat :=
  match g with
  | .nameG => { st with name := "Unknown" }
  | .memG => { st with memory_total := 0, memory_used := 0, memory_utilization := 0 }
  | .utilG => { st with utilization := 0, memory_utilization_rate := 0 }
  | .tempG => { st with temperature := 0 }
  | .powerG => { st with power_draw := 0, power_limit := 0 }
  | .fanG => { st with fan_speed := 0 }
  | .clockG => { st with clock_speed := 0 }

/-- Apply `f` to the element at position `i` of a list (no-op when out
of range). -/
def modifyAt (f : α → α) : ℕ → List α → List α
  | _, [] => []
  | 0, x :: xs => f x :: xs
  | n + 1, x :: xs => x :: modifyAt f n xs

/-- The `self.alert_states` dictionary: one armed flag per metric name
(gpu_monitor_app.py lines 47-52). -/
structure AlertFlags where
  temperature : Bool
  utilization : Bool
  memory_utilization : Bool
  power_draw : Bool
deriving DecidableEq

/-- The `self.thresholds` mapping. -/
structure Thresholds where
  temperature : ℚ
  utilization : ℚ
  memory_utilization : ℚ
  power_draw : ℚ
deriving DecidableEq

/-- The four alerted metrics. -/
inductive Metric where
  | temperature
  | utilization
  | memory_utilization
  | power_draw
deriving DecidableEq

/-- One alert event (one string appended to `alerts_triggered`). -/
structure Event where
  device : ℕ
  metric : Metric
  value : ℚ
  threshold : ℚ
deriving DecidableEq

/-- The `alert_states` value set in `__init__`: all four flags start
false (gpu_monitor_app.py lines 47-52). -/
def initFlags : AlertFlags :=
  { temperature := false, utilization := false
    memory_utilization := false, power_draw := false }

/-- One metric branch of `check_alerts` (e.g. lines 477-484):
`if value > threshold and not armed: emit; armed := True
 elif value <= threshold: armed := False`.
Returns (new armed flag, whether an event was emitted). -/
def stepMetric (thr v : ℚ) (armed : Bool) : Bool × Bool :=
  if thr < v ∧ armed = false then (true, true)
  else if v ≤ thr then (false, false)
  else (armed, false)

/-- The body of the `for stat in stats` loop of `check_alerts`
(gpu_monitor_app.py lines 473-518): the four metric branches run in
order temperature, utilization, memory utilization, power draw, all
reading and writing the same shared `alert_states` flags. -/
def checkAlertsDevice (th : Thresholds) (fl : AlertFlags) (st : Stat) :
    AlertFlags × List Event :=
  let t := stepMetric th.temperature st.temperature fl.temperature
  let u := stepMetric th.utilization st.utilization fl.utilization
  let m := stepMetric th.memory_utilization st.memory_utilization fl.memory_utilization
  let p := stepMetric th.power_draw st.power_draw fl.power_draw
  (AlertFlags.mk t.1 u.1 m.1 p.1,
    (if t.2 then [Event.mk st.gpu_index Metric.temperature st.temperature th.temperature] else [])
    ++ (if u.2 then [Event.mk st.gpu_index Metric.utilization st.utilization th.utilization] else [])
    ++ (if m.2 then [Event.mk st.gpu_index Metric.memory_utilization st.memory_utilization th.memory_utilization] else [])
    ++ (if p.2 then [Event.mk st.gpu_index Metric.power_draw st.power_draw th.power_draw] else []))

/-- The method `check_alerts(stats)`: folds the shared flags over the devices of
one tick, in device order, collecting the emitted events. -/
def checkAlerts (th : Thresholds) (fl : AlertFlags) : List Stat → AlertFlags × List Event
  | [] => (fl, [])
  | st :: rest =>
    let d := checkAlertsDevice th fl st
    let r := checkAlerts th d.1 rest
    (r.1, d.2 ++ r.2)

/-- Several consecutive ticks: `check_alerts` applied to each tick's
stats list, threading the flags, returning the events per tick. -/
def runTicks (th : Thresholds) (fl : AlertFlags) :
    List (List Stat) → AlertFlags × List (List Event)
  | [] => (fl, [])
  | tick :: rest =>
    let d := checkAlerts th fl tick
    let r := runTicks th d.1 rest
    (r.1, d.2 :: r.2)

/-- The per-metric flag value left by evaluating one sample: the code
sets the flag to true whenever `value > threshold` and to false
whenever `value <= threshold`, so after a sample the flag equals the
comparison. -/
def flagsOfStat (th : Thresholds) (st : Stat) : AlertFlags :=
  { temperature := decide (th.temperature < st.temperature)
    utilization := decide (th.utilization < st.utilization)
    memory_utilization := decide (th.memory_utilization < st.memory_utilization)
    power_draw := decide (th.power_draw < st.power_draw) }

/-- A stat for device `i` whose temperature is `v` and whose other
metrics are all 0 (values below or at any nonnegative threshold). -/
def mkTempStat (i : ℕ) (v : ℚ) : Stat :=
  { gpu_index := i, name := "", memory_total := 0, memory_used := 0
    memory_utilization := 0, utilization := 0, memory_utilization_rate := 0
    temperature := v, power_draw := 0, power_limit := 0
    fan_speed := 0, clock_speed := 0, processes := [] }

/-- A `collections.deque(maxlen=cap)` append: drop the oldest element
when full (`__init__` creates the data buffers with `maxlen=60`,
gpu_monitor_app.py lines 71-82). -/
def appendCap (cap : ℕ) (q : List α) (x : α) : List α :=
  if q.length < cap then q ++ [x] else q.tail ++ [x]

/-- Appending a whole list of values, oldest first. -/
def appendAll (cap : ℕ) (q : List α) (xs : List α) : List α :=
  xs.foldl (appendCap cap) q

/-- One device's entry of `self.data_buffers`: the five deques created
in `__init__` (maxlen 60). -/
structure Buffers where
  time : List ℕ
  temperature : List ℚ
  utilization : List ℚ
  memory_utilization : List ℚ
  power_draw : List ℚ
deriving DecidableEq

/-- A freshly created buffer set (all deques empty). -/
def emptyBuffers : Buffers :=
  { time := [], temperature := [], utilization := []
    memory_utilization := [], power_draw := [] }

/-- The state change of `update_dashboard_graphs`
(gpu_monitor_app.py lines 562-576): the logical timestamp recorded for
this tick is `len(self.data_buffers[0]['time'])` — the CURRENT length
of the first device's time deque — and each device appends the
timestamp plus its four metric values.  (`setData` rendering is a
presentation side effect with no core state.)  The device count equals
the stats count in operation; the embedding pairs them positionally. -/
def dashboardAppend (bufs : List Buffers) (stats : List Stat) : List Buffers :=
  let currentTime := (bufs.headD emptyBuffers).time.length
  List.zipWith
    (fun b s =>
      { time := appendCap 60 b.time currentTime
        temperature := appendCap 60 b.temperature s.temperature
        utilization := appendCap 60 b.utilization s.utilization
        memory_utilization := appendCap 60 b.memory_utilization s.memory_utilization
        power_draw := appendCap 60 b.power_draw s.power_draw } : Buffers → Stat → Buffers)
    bufs stats

/-- A single-device dashboard after `n` ticks, each tick appending the
same (irrelevant) stat values; only the `time` deque matters for the
timestamp claim. -/
def afterTicks (n : ℕ) : List Buffers :=
  (fun b => dashboardAppend b [mkTempStat 0 0])^[n] [emptyBuffers]

/-- The logical timestamp the code records at tick `n + 1` (1-indexed):
the length of the time deque just before that tick's append. -/
def recordedTime (n : ℕ) : ℕ :=
  ((afterTicks n).headD emptyBuffers).time.length

/-- The comparison realising Python's
`sorted(key=lambda x: x['used_memory'], reverse=True)`: `a` sorts no
later than `b` when `b`'s memory is at most `a`'s. -/
def procRel (a b : Proc) : Prop :=
  b.used_memory ≤ a.used_memory

instance : DecidableRel procRel :=
  fun a b => inferInstanceAs (Decidable (b.used_memory ≤ a.used_memory))

/-- Python's `sorted` is stable; insertion sort with the reflexive
comparison `procRel` inserts an earlier element strictly before every
later element with an equal key, realising the same stable descending
order. -/
def pySortProcs (l : List Proc) : List Proc :=
  l.insertionSort procRel

/-- The ranking step of `update_process_tables`
(gpu_monitor_app.py lines 541-543):
`sorted(processes, key=lambda x: x['used_memory'], reverse=True)[:20]`. -/
def rank (ps : List Proc) : List Proc :=
  (pySortProcs ps).take 20

/-- The relation `procRel` lifted to discovery-index-tagged entries (the tag is
ignored, exactly as Python's key function ignores list positions). -/
def tagRel (a b : ℕ × Proc) : Prop :=
  b.2.used_memory ≤ a.2.used_memory

instance : DecidableRel tagRel :=
  fun a b => inferInstanceAs (Decidable (b.2.used_memory ≤ a.2.used_memory))

/-- The same stable descending sort on discovery-tagged entries. -/
def pySortTagged (l : List (ℕ × Proc)) : List (ℕ × Proc) :=
  l.insertionSort tagRel

/-- Tag each element with its discovery index, starting at `n`. -/
def tagIdx (n : ℕ) : List α → List (ℕ × α)
  | [] => []
  | x :: xs => (n, x) :: tagIdx (n + 1) xs

/-- The strict order "larger memory first, ties by earlier discovery
index" on discovery-tagged process entries. -/
def lexOrder (p q : ℕ × Proc) : Prop :=
  q.2.used_memory < p.2.used_memory ∨
    (p.2.used_memory = q.2.used_memory ∧ p.1 < q.1)

/-- The stages of one `update_stats` tick, in the order the method body
calls them (gpu_monitor_app.py lines 578-586).  History appends happen
inside the dashboard-graphs stage; process ranking happens inside the
process-tables stage. -/
inductive Stage where
  | sampleStage
  | statsTableStage
  | processTablesStage
  | alertsStage
  | dashboardStage
deriving DecidableEq, BEq

/-- The mutable state touched by one tick, plus an execution log of the
stages in the order they ran. -/
structure World where
  flags : AlertFlags
  bufs : List Buffers
  tables : List (List Proc)
  log : List Stage

/-- One `update_stats` tick (gpu_monitor_app.py lines 578-586) on its
success path, given the tick's sampled stats: the method calls, in
source order, `get_nvidia_stats` (sample), `update_stats_table`
(presentation only), `update_process_tables` (ranks each device's
processes), `check_alerts` (updates the shared alert flags), and
finally `update_dashboard_graphs` (appends to the history buffers). -/
def updateStatsRun (th : Thresholds) (stats : List Stat) (w : World) : World :=
  let w1 : World := { w with log := w.log ++ [Stage.sampleStage] }
  let w2 : World := { w1 with log := w1.log ++ [Stage.statsTableStage] }
  let w3 : World := { w2 with
    tables := stats.map (fun s => rank s.processes)
    log := w2.log ++ [Stage.processTablesStage] }
  let w4 : World := { w3 with
    flags := (checkAlerts th w3.flags stats).1
    log := w3.log ++ [Stage.alertsStage] }
  { w4 with
    bufs := dashboardAppend w4.bufs stats
    log := w4.log ++ [Stage.dashboardStage] }

/-- A device whose memory query succeeds reporting a zero total (all
other queries fail). -/
def qZeroTotal : Queries :=
  { name := none, mem := some (MemInfo.mk 0 0), util := none, temp := none
    power := none, fan := none, clock := none, computeProcs := none
    graphicsProcs := none, procName := fun _ => "Unknown" }

/-- A device all of whose queries fail. -/
def qAllFail : Queries :=
  { name := none, mem := none, util := none, temp := none
    power := none, fan := none, clock := none, computeProcs := none
    graphicsProcs := none, procName := fun _ => "Unknown" }

/-- The stat produced for `qAllFail` at index 3: every field is its
sentinel. -/
def stAllFail : Stat :=
  { gpu_index := 3, name := "Unknown", memory_total := 0, memory_used := 0
    memory_utilization := 0, utilization := 0, memory_utilization_rate := 0
    temperature := 0, power_draw := 0, power_limit := 0
    fan_speed := 0, clock_speed := 0, processes := [] }

/-- Thresholds with temperature 80 and the other three metrics 0. -/
def thTemp80 : Thresholds :=
  { temperature := 80, utilization := 0, memory_utilization := 0, power_draw := 0 }

/-- The five-tick single-device temperature sequence
`[T-1, T+1, T+1, T-1, T+1]` of the hysteresis claim. -/
def c5seq (T : ℚ) : List (List Stat) :=
  [[mkTempStat 0 (T - 1)], [mkTempStat 0 (T + 1)], [mkTempStat 0 (T + 1)],
   [mkTempStat 0 (T - 1)], [mkTempStat 0 (T + 1)]]

/-- A device whose temperature query succeeds (55) while all other
queries fail. -/
def qTempOnly : Queries :=
  { qAllFail with temp := some 55 }

/-- The stat produced for `qTempOnly` at index 0. -/
def stWit0 : Stat :=
  { stAllFail with gpu_index := 0, temperature := 55 }

/-- The stat produced for `qAllFail` at index 1. -/
def stWit1 : Stat :=
  { stAllFail with gpu_index := 1 }

end GpuMonitor

namespace GpuMonitor

theorem appendAll_nil {α : Type} (cap : ℕ) (q : List α) :
    appendAll cap q [] = q := rfl

theorem appendAll_cons {α : Type} (cap : ℕ) (q : List α) (x : α) (xs : List α) :
    appendAll cap q (x :: xs) = appendAll cap (appendCap cap q x) xs := rfl

/-- Closed form for repeatedly appending to a `deque(maxlen=cap)`:
the result is the concatenation with all but the last `cap` elements
dropped. -/
theorem appendAll_eq {α : Type} (cap : ℕ) (hcap : 0 < cap) :
    ∀ (xs q : List α), q.length ≤ cap →
      appendAll cap q xs = (q ++ xs).drop (q.length + xs.length - cap) := by
  intro xs
  induction xs with
  | nil =>
    intro q hq
    have h0 : q.length - cap = 0 := by omega
    simp [appendAll_nil, h0]
  | cons x xs ih =>
    intro q hq
    rw [appendAll_cons]
    by_cases h : q.length < cap
    · have hcap1 : appendCap cap q x = q ++ [x] := by simp [appendCap, h]
      rw [hcap1, ih (q ++ [x]) (by simp; omega)]
      have e1 : (q ++ [x]) ++ xs = q ++ x :: xs := by simp
      have e2 : (q ++ [x]).length + xs.length - cap
          = q.length + (x :: xs).length - cap := by simp; omega
      rw [e1, e2]
    · have hlen : q.length = cap := le_antisymm hq (not_lt.mp h)
      cases q with
      | nil => simp at hlen; omega
      | cons a q' =>
        have hl : q'.length + 1 = cap := by simpa using hlen
        have hcap1 : appendCap cap (a :: q') x = q' ++ [x] := by
          unfold appendCap
          rw [if_neg h]
          rfl
        rw [hcap1, ih (q' ++ [x])
          (by simp only [List.length_append, List.length_cons, List.length_nil]; omega)]
        have e1 : (q' ++ [x]) ++ xs = q' ++ x :: xs := by simp
        have e2 : (q' ++ [x]).length + xs.length - cap = xs.length := by
          simp; omega
        have e3 : (a :: q').length + (x :: xs).length - cap = xs.length + 1 := by
          simp; omega
        rw [e1, e2, e3]
        rfl

/-- C2 counterexample: when the memory query succeeds with a zero
total, `get_nvidia_stats` raises `ZeroDivisionError` (the `used/total`
division is unguarded and `except pynvml.NVMLError` does not catch it);
the sample is not produced at all, so `memory_utilization` is not set
to 0 as the claim states. -/
theorem c2_counterexample :
    getNvidiaStats [qZeroTotal] = .error PyError.zeroDivision := rfl

/-- C2 amended: for every sample in which the memory query succeeds,
the adapter computes `memory_utilization` as `used/total*100`
unconditionally; when `total = 0` this raises an uncaught division
error that aborts the sample, and the 0 sentinel is used only when the
memory query itself fails. -/
theorem c2_amended (m : MemInfo) :
    (m.total ≠ 0 →
      memFields (some m)
        = .ok (m.total / 1048576, m.used / 1048576, m.used / m.total * 100))
  ∧ memFields none = (.ok ((0 : ℚ), (0 : ℚ), (0 : ℚ)) : Except PyError (ℚ × ℚ × ℚ))
  ∧ (m.total = 0 → memFields (some m) = .error PyError.zeroDivision)
  ∧ (∀ (i : ℕ) (q : Queries), q.mem = some m → m.total ≠ 0 →
      ∃ st, deviceStat i q = .ok st
        ∧ st.memory_utilization = m.used / m.total * 100) := by
  refine ⟨fun h => ?_, rfl, fun h => ?_, fun i q hq h => ?_⟩
  · simp [memFields, pyDiv, h]
  · simp [memFields, pyDiv, h]
  · have hm : memFields q.mem
        = .ok (m.total / 1048576, m.used / 1048576, m.used / m.total * 100) := by
      rw [hq]; simp [memFields, pyDiv, h]
    simp only [deviceStat, hm]
    exact ⟨_, rfl, rfl⟩

theorem c2_amended_witness :
    ((2 : ℚ) ≠ 0
      ∧ memFields (some (MemInfo.mk 2 1))
          = .ok ((2 : ℚ) / 1048576, (1 : ℚ) / 1048576, (1 : ℚ) / 2 * 100))
  ∧ ((0 : ℚ) = 0
      ∧ memFields (some (MemInfo.mk 0 0)) = .error PyError.zeroDivision) :=
  ⟨⟨by norm_num, (c2_amended (MemInfo.mk 2 1)).1 (by norm_num)⟩,
   ⟨rfl, (c2_amended (MemInfo.mk 0 0)).2.2.1 rfl⟩⟩

set_option maxRecDepth 8000

/-- C3: the logical timestamp `update_dashboard_graphs` records is
`len(self.data_buffers[0]['time'])`, which saturates at the deque
capacity 60: the timestamps recorded at ticks 60, 61 and 62 (1-indexed)
are 59, 60 and 60, so from tick 61 on the recorded timestamp is
constant 60 instead of strictly increasing. -/
theorem c3_timestamp_saturates :
    recordedTime 59 = 59 ∧ recordedTime 60 = 60 ∧ recordedTime 61 = 60
      ∧ ¬ recordedTime 60 < recordedTime 61 := by
  have h60 : recordedTime 60 = 60 := rfl
  have h61 : recordedTime 61 = 60 := rfl
  exact ⟨rfl, h60, h61, by rw [h60, h61]; omega⟩

/-- C6: for a `(device, metric)` series of capacity 60, appending
`60 + k` values leaves exactly the last 60 values in original relative
order, and the series length never exceeds 60 after any number of
appends. -/
theorem c6_history_bound (xs : List ℚ) (k : ℕ) (h : xs.length = 60 + k) :
    appendAll 60 ([] : List ℚ) xs = xs.drop k
  ∧ ∀ ys : List ℚ, (appendAll 60 ([] : List ℚ) ys).length ≤ 60 := by
  constructor
  · have e := appendAll_eq 60 (by norm_num) xs ([] : List ℚ) (by simp)
    rw [e]
    simp [h]
  · intro ys
    have e := appendAll_eq 60 (by norm_num) ys ([] : List ℚ) (by simp)
    rw [e]
    simp
    omega

theorem c6_history_bound_witness :
    (List.replicate 61 (0 : ℚ)).length = 60 + 1
  ∧ appendAll 60 ([] : List ℚ) (List.replicate 61 (0 : ℚ))
      = (List.replicate 61 (0 : ℚ)).drop 1 :=
  ⟨by simp, (c6_history_bound (List.replicate 61 (0 : ℚ)) 1 (by simp)).1⟩

theorem stepMetric_clear (thr v : ℚ) (a : Bool) (h : v ≤ thr) :
    stepMetric thr v a = (false, false) := by
  simp [stepMetric, h, not_lt.mpr h]

theorem stepMetric_arm (thr v : ℚ) (h : thr < v) :
    stepMetric thr v false = (true, true) := by
  simp [stepMetric, h]

theorem stepMetric_stay (thr v : ℚ) (h : thr < v) :
    stepMetric thr v true = (true, false) := by
  simp [stepMetric, h, not_le.mpr h]

/-- After evaluating one value, the metric's armed flag equals the
comparison `value > threshold`, whatever the flag was before. -/
theorem stepMetric_fst (thr v : ℚ) (a : Bool) :
    (stepMetric thr v a).1 = decide (thr < v) := by
  rcases le_or_lt v thr with h | h
  · rw [stepMetric_clear thr v a h]
    simp [not_lt.mpr h]
  · cases a
    · rw [stepMetric_arm thr v h]
      simp [h]
    · rw [stepMetric_stay thr v h]
      simp [h]

theorem checkAlertsDevice_fst (th : Thresholds) (fl : AlertFlags) (st : Stat) :
    (checkAlertsDevice th fl st).1 = flagsOfStat th st := by
  simp [checkAlertsDevice, flagsOfStat, stepMetric_fst]

theorem checkAlerts_append_fst (th : Thresholds) (fl : AlertFlags)
    (l : List Stat) (st : Stat) :
    (checkAlerts th fl (l ++ [st])).1 = flagsOfStat th st := by
  induction l generalizing fl with
  | nil => simp [checkAlerts, checkAlertsDevice_fst]
  | cons s rest ih => simp [checkAlerts, ih]

/-- C1 counterexample: with threshold 80 and two devices, device 1's
sample is 90 in both runs (identical own history), yet in the first run
(device 0 also at 90) device 1 emits NO event — device 0's sample armed
the shared temperature flag first — while in the second run (device 0
at 70) device 1 emits the event.  The armed flag consulted for device 1
therefore depends on device 0's samples, refuting per-(device, metric)
alert state. -/
theorem c1_counterexample :
    (runTicks thTemp80 initFlags [[mkTempStat 0 90, mkTempStat 1 90]]).2
      = [[Event.mk 0 Metric.temperature 90 80]]
  ∧ (runTicks thTemp80 initFlags [[mkTempStat 0 70, mkTempStat 1 90]]).2
      = [[Event.mk 1 Metric.temperature 90 80]] := by
  constructor <;> rfl

/-- C1 amended: alert state is maintained per metric only and is shared
by all devices: the four flags start Clear at startup, the devices of a
tick update the same four flags in sequence (so the flag consulted for
a device is whatever the previously evaluated sample, possibly another
device's, left behind), and after any sample is evaluated a metric's
flag equals whether that sample's value exceeded the threshold —
regardless of which device supplied it. -/
theorem c1_amended :
    initFlags = AlertFlags.mk false false false false
  ∧ (∀ (th : Thresholds) (fl : AlertFlags) (st : Stat),
      (checkAlertsDevice th fl st).1 = flagsOfStat th st)
  ∧ (∀ (th : Thresholds) (fl : AlertFlags) (l : List Stat) (st : Stat),
      (checkAlerts th fl (l ++ [st])).1 = flagsOfStat th st) :=
  ⟨rfl, checkAlertsDevice_fst, checkAlerts_append_fst⟩

/-- C5: for every threshold `T`, the single-device single-metric value
sequence `[T-1, T+1, T+1, T-1, T+1]` emits exactly two Clear→Armed
alert events, at ticks 2 and 5, and none at ticks 1, 3, 4. -/
theorem c5_alert_positions (T : ℚ) :
    (runTicks (Thresholds.mk T 0 0 0) initFlags (c5seq T)).2
      = [[], [Event.mk 0 Metric.temperature (T + 1) T], [], [],
         [Event.mk 0 Metric.temperature (T + 1) T]] := by
  have h1 : T - 1 ≤ T := by linarith
  have h2 : T < T + 1 := by linarith
  simp [c5seq, runTicks, checkAlerts, checkAlertsDevice, initFlags, mkTempStat,
    stepMetric_clear, stepMetric_arm, stepMetric_stay, h1, h2]

/-- C9: a failed metric query is indistinguishable from a genuine low
reading.  If the temperature query fails, the adapter reports the
sentinel 0; for any nonnegative threshold the alert engine then takes
the `value <= threshold` branch, silently clearing an armed flag and
emitting no temperature event, and a later real breach (`value >
threshold` from the Clear state) emits a fresh event. -/
theorem c9_sentinel_clears (i : ℕ) (q : Queries) (st : Stat) (th : Thresholds)
    (fl : AlertFlags) (hq : q.temp = none) (hok : deviceStat i q = .ok st)
    (hT : 0 ≤ th.temperature) :
    st.temperature = 0
  ∧ (checkAlertsDevice th fl st).1.temperature = false
  ∧ (∀ e ∈ (checkAlertsDevice th fl st).2, e.metric ≠ Metric.temperature)
  ∧ (∀ v, th.temperature < v → stepMetric th.temperature v false = (true, true)) := by
  have h0 : st.temperature = 0 := by
    unfold deviceStat at hok
    cases hm : memFields q.mem with
    | error e => rw [hm] at hok; cases hok
    | ok mf =>
      rw [hm] at hok
      injection hok with h
      rw [← h]
      simp [hq]
  have hc := stepMetric_clear th.temperature 0 fl.temperature hT
  refine ⟨h0, ?_, ?_, fun v hv => stepMetric_arm th.temperature v hv⟩
  · simp [checkAlertsDevice, h0, hc]
  · intro e he
    simp [checkAlertsDevice, h0, hc] at he
    rcases he with ⟨_, rfl⟩ | ⟨_, rfl⟩ | ⟨_, rfl⟩ <;> simp

theorem c9_sentinel_clears_witness :
    qAllFail.temp = none
  ∧ deviceStat 3 qAllFail = .ok stAllFail
  ∧ (0 : ℚ) ≤ thTemp80.temperature
  ∧ stAllFail.temperature = 0
  ∧ (checkAlertsDevice thTemp80 (AlertFlags.mk true false false false) stAllFail).1.temperature
      = false
  ∧ stepMetric thTemp80.temperature 90 false = (true, true) := by
  have h := c9_sentinel_clears 3 qAllFail stAllFail thTemp80
    (AlertFlags.mk true false false false) rfl rfl (by norm_num [thTemp80])
  exact ⟨rfl, rfl, by norm_num [thTemp80], h.1, h.2.1,
    h.2.2.2 90 (by norm_num [thTemp80])⟩

/-- C10: the memory-utilization alert branch compares the used/total
derived percentage (`stat['memory_utilization']`) against the
threshold; the separately queried rates value
(`stat['memory_utilization_rate']`) plays no role in any alert
decision — changing it arbitrarily changes neither the flags nor the
emitted events. -/
theorem c10_memory_alert_source :
    (∀ (th : Thresholds) (fl : AlertFlags) (st : Stat) (r : ℚ),
      checkAlertsDevice th fl { st with memory_utilization_rate := r }
        = checkAlertsDevice th fl st)
  ∧ (∀ (th : Thresholds) (fl : AlertFlags) (l : List Stat) (f : Stat → ℚ),
      checkAlerts th fl (l.map fun s => { s with memory_utilization_rate := f s })
        = checkAlerts th fl l)
  ∧ (∀ (th : Thresholds) (fl : AlertFlags) (st : Stat),
      (checkAlertsDevice th fl st).1.memory_utilization
        = decide (th.memory_utilization < st.memory_utilization)) := by
  refine ⟨fun th fl st r => rfl, fun th fl l f => ?_, fun th fl st => ?_⟩
  · induction l generalizing fl with
    | nil => rfl
    | cons s rest ih =>
      have e1 : checkAlertsDevice th fl { s with memory_utilization_rate := f s }
          = checkAlertsDevice th fl s := rfl
      simp only [List.map_cons, checkAlerts, e1, ih]
  · simp [checkAlertsDevice, stepMetric_fst]

/-- C4 counterexample: running one tick from a fresh world, the
execution log shows `check_alerts` (stage 4) runs strictly BEFORE
`update_dashboard_graphs` (stage 5), which is where the history buffers
are appended — so the history update for a tick does NOT happen before
that tick's alert evaluation; moreover the stats-table presentation
stage runs before alert evaluation, not after. -/
theorem c4_counterexample :
    (updateStatsRun thTemp80 [] (World.mk initFlags [] [] [])).log
      = [Stage.sampleStage, Stage.statsTableStage, Stage.processTablesStage,
         Stage.alertsStage, Stage.dashboardStage]
  ∧ ¬ ((updateStatsRun thTemp80 [] (World.mk initFlags [] [] [])).log.indexOf
        Stage.dashboardStage
      < (updateStatsRun thTemp80 [] (World.mk initFlags [] [] [])).log.indexOf
        Stage.alertsStage)
  ∧ (updateStatsRun thTemp80 [] (World.mk initFlags [] [] [])).log.indexOf
        Stage.statsTableStage
      < (updateStatsRun thTemp80 [] (World.mk initFlags [] [] [])).log.indexOf
        Stage.alertsStage := by
  refine ⟨rfl, ?_, ?_⟩ <;> decide

/-- C4 amended: each tick executes, in order: take the telemetry
sample, render the stats table (presentation), rank processes (and
render the process tables), evaluate alerts, and only then append the
tick's values to the history store while redrawing the dashboard —
the history update for a tick happens AFTER that tick's alert
evaluation, and alert evaluation reads the tick's freshly sampled
stats and the pre-tick flags, never the history buffers. -/
theorem c4_amended (th : Thresholds) (stats : List Stat) (w : World) :
    (updateStatsRun th stats w).log
      = w.log ++ [Stage.sampleStage, Stage.statsTableStage,
          Stage.processTablesStage, Stage.alertsStage, Stage.dashboardStage]
  ∧ (updateStatsRun th stats w).flags = (checkAlerts th w.flags stats).1
  ∧ (updateStatsRun th stats w).bufs = dashboardAppend w.bufs stats
  ∧ (updateStatsRun th stats w).tables = stats.map (fun s => rank s.processes) := by
  refine ⟨?_, rfl, rfl, rfl⟩
  simp [updateStatsRun]

theorem tagIdx_map_snd (n : ℕ) : ∀ l : List α, (tagIdx n l).map Prod.snd = l := by
  intro l
  induction l generalizing n with
  | nil => rfl
  | cons x xs ih => simp [tagIdx, ih]

theorem le_fst_of_mem_tagIdx {p : ℕ × α} :
    ∀ {l : List α} {n : ℕ}, p ∈ tagIdx n l → n ≤ p.1 := by
  intro l
  induction l with
  | nil => intro n h; simp [tagIdx] at h
  | cons x xs ih =>
    intro n h
    simp only [tagIdx, List.mem_cons] at h
    rcases h with h | h
    · subst h; exact le_refl n
    · exact Nat.le_of_succ_le (ih h)

theorem pairwise_fst_tagIdx (n : ℕ) :
    ∀ l : List α, (tagIdx n l).Pairwise (fun p q => p.1 < q.1) := by
  intro l
  induction l generalizing n with
  | nil => simp [tagIdx]
  | cons x xs ih =>
    simp only [tagIdx, List.pairwise_cons]
    refine ⟨fun q hq => ?_, ih (n + 1)⟩
    exact Nat.lt_of_succ_le (le_fst_of_mem_tagIdx hq)

theorem orderedInsert_snd (x : ℕ × Proc) :
    ∀ l : List (ℕ × Proc),
      (List.orderedInsert tagRel x l).map Prod.snd
        = List.orderedInsert procRel x.2 (l.map Prod.snd) := by
  intro l
  induction l with
  | nil => rfl
  | cons b t ih =>
    by_cases h : tagRel x b
    · have h' : procRel x.2 b.2 := h
      simp [List.orderedInsert, h, h']
    · have h' : ¬ procRel x.2 b.2 := h
      simp [List.orderedInsert, h, h', ih]

theorem pySortTagged_snd :
    ∀ l : List (ℕ × Proc),
      (pySortTagged l).map Prod.snd = pySortProcs (l.map Prod.snd) := by
  intro l
  induction l with
  | nil => rfl
  | cons x t ih =>
    simp only [pySortTagged, pySortProcs, List.insertionSort, List.map_cons] at ih ⊢
    rw [orderedInsert_snd, ih]

theorem pairwise_lex_orderedInsert (x : ℕ × Proc) :
    ∀ l : List (ℕ × Proc), l.Pairwise lexOrder → (∀ q ∈ l, x.1 < q.1) →
      (List.orderedInsert tagRel x l).Pairwise lexOrder := by
  intro l
  induction l with
  | nil => intro _ _; simp
  | cons b t ih =>
    intro hl hx
    rcases List.pairwise_cons.mp hl with ⟨hb, ht⟩
    by_cases h : tagRel x b
    · rw [List.orderedInsert, if_pos h]
      refine List.pairwise_cons.mpr ⟨?_, hl⟩
      intro c hc
      have hxc : x.1 < c.1 := hx c hc
      rcases List.mem_cons.mp hc with h1 | h1
      · have hle : c.2.used_memory ≤ x.2.used_memory := by rw [h1]; exact h
        rcases lt_or_eq_of_le hle with hlt | heq
        · exact Or.inl hlt
        · exact Or.inr ⟨heq.symm, hxc⟩
      · rcases hb c h1 with hlt | ⟨heq, _⟩
        · exact Or.inl (lt_of_lt_of_le hlt h)
        · have hle : c.2.used_memory ≤ x.2.used_memory := heq ▸ h
          rcases lt_or_eq_of_le hle with hlt | heq2
          · exact Or.inl hlt
          · exact Or.inr ⟨heq2.symm, hxc⟩
    · rw [List.orderedInsert, if_neg h]
      have hxb : x.2.used_memory < b.2.used_memory := not_le.mp h
      refine List.pairwise_cons.mpr ⟨?_, ih ht (fun q hq => hx q (List.mem_cons_of_mem b hq))⟩
      intro c hc
      rcases (List.mem_orderedInsert tagRel).mp hc with hc | hc
      · rw [hc]; exact Or.inl hxb
      · exact hb c hc

theorem pairwise_lex_pySortTagged :
    ∀ l : List (ℕ × Proc), l.Pairwise (fun p q => p.1 < q.1) →
      (pySortTagged l).Pairwise lexOrder := by
  intro l
  induction l with
  | nil => intro _; simp [pySortTagged, List.insertionSort]
  | cons x t ih =>
    intro h
    rcases List.pairwise_cons.mp h with ⟨hx, ht⟩
    simp only [pySortTagged, List.insertionSort] at ih ⊢
    refine pairwise_lex_orderedInsert x _ (ih ht) ?_
    intro q hq
    exact hx q ((List.perm_insertionSort tagRel t).mem_iff.mp hq)

/-- C7: the ranker's output is the first 20 entries of the stable
descending sort of the input: the sorted list is a permutation of the
discovery-tagged input that is pairwise ordered by "larger memory
first, ties by earlier discovery index", and `rank` projects away the
tags and truncates to 20; on memory values `[5, 20, 5, 1]` the output
order is `[20, 5(first), 5(second), 1]`. -/
theorem c7_ranker (ps : List Proc) :
    (pySortTagged (tagIdx 0 ps)).Perm (tagIdx 0 ps)
  ∧ (pySortTagged (tagIdx 0 ps)).Pairwise lexOrder
  ∧ rank ps = ((pySortTagged (tagIdx 0 ps)).map Prod.snd).take 20
  ∧ rank [Proc.mk 1 5 "C" "a", Proc.mk 2 20 "C" "b",
          Proc.mk 3 5 "C" "c", Proc.mk 4 1 "C" "d"]
      = [Proc.mk 2 20 "C" "b", Proc.mk 1 5 "C" "a",
         Proc.mk 3 5 "C" "c", Proc.mk 4 1 "C" "d"] := by
  refine ⟨List.perm_insertionSort tagRel (tagIdx 0 ps),
    pairwise_lex_pySortTagged (tagIdx 0 ps) (pairwise_fst_tagIdx 0 ps), ?_, by decide⟩
  rw [pySortTagged_snd, tagIdx_map_snd]
  rfl

theorem modifyAt_getElem_ne (f : α → α) :
    ∀ (i j : ℕ) (l : List α), j ≠ i → (modifyAt f i l)[j]? = l[j]? := by
  intro i j l
  induction l generalizing i j with
  | nil => intro _; cases i <;> rfl
  | cons x xs ih =>
    intro hne
    cases i with
    | zero =>
      cases j with
      | zero => exact absurd rfl hne
      | succ k =>
        show (f x :: xs)[k + 1]? = (x :: xs)[k + 1]?
        simp
    | succ m =>
      cases j with
      | zero =>
        show (x :: modifyAt f m xs)[0]? = (x :: xs)[0]?
        simp
      | succ k =>
        show (x :: modifyAt f m xs)[k + 1]? = (x :: xs)[k + 1]?
        simp only [List.getElem?_cons_succ]
        exact ih m k (fun h => hne (by rw [h]))

theorem modifyAt_getElem_eq (f : α → α) :
    ∀ (i : ℕ) (l : List α), (modifyAt f i l)[i]? = (l[i]?).map f := by
  intro i l
  induction l generalizing i with
  | nil => cases i <;> rfl
  | cons x xs ih =>
    cases i with
    | zero =>
      show (f x :: xs)[0]? = ((x :: xs)[0]?).map f
      simp
    | succ m =>
      show (x :: modifyAt f m xs)[m + 1]? = ((x :: xs)[m + 1]?).map f
      simp only [List.getElem?_cons_succ]
      exact ih m

theorem memFields_none : memFields none = .ok ((0 : ℚ), (0 : ℚ), (0 : ℚ)) := rfl

/-- Failing one metric group's query changes the produced stat exactly
at that group's fields, which become their sentinel. -/
theorem deviceStat_failGroup (i : ℕ) (q : Queries) (g : Group) (st : Stat)
    (hok : deviceStat i q = .ok st) :
    deviceStat i (failGroup g q) = .ok (sentinelAt g st) := by
  cases hm : memFields q.mem with
  | error e =>
    unfold deviceStat at hok
    rw [hm] at hok
    cases hok
  | ok mf =>
    unfold deviceStat at hok
    rw [hm] at hok
    injection hok with h
    subst h
    cases g <;> simp only [deviceStat, failGroup, memFields_none, hm] <;>
      simp [sentinelAt, procsOf]

theorem statsFrom_failAt (g : Group) :
    ∀ (qs : List Queries) (n i : ℕ) (s : List Stat),
      statsFrom n qs = .ok s →
      statsFrom n (modifyAt (failGroup g) i qs)
        = .ok (modifyAt (sentinelAt g) i s) := by
  intro qs
  induction qs with
  | nil =>
    intro n i s h
    simp only [statsFrom, Except.ok.injEq] at h
    subst h
    cases i <;> rfl
  | cons q qs ih =>
    intro n i s h
    cases hd : deviceStat n q with
    | error e =>
      unfold statsFrom at h
      rw [hd] at h
      cases h
    | ok st =>
      cases hr : statsFrom (n + 1) qs with
      | error e =>
        unfold statsFrom at h
        rw [hd, hr] at h
        cases h
      | ok rest =>
        unfold statsFrom at h
        rw [hd, hr] at h
        injection h with h
        subst h
        cases i with
        | zero =>
          show statsFrom n (failGroup g q :: qs) = .ok (sentinelAt g st :: rest)
          unfold statsFrom
          rw [deviceStat_failGroup n q g st hd, hr]
        | succ j =>
          show statsFrom n (q :: modifyAt (failGroup g) j qs)
            = .ok (st :: modifyAt (sentinelAt g) j rest)
          unfold statsFrom
          rw [hd, ih (n + 1) j rest hr]

/-- C8: if the sampling of `qs` succeeds and then exactly one metric
group `g` of device `i` fails, sampling still succeeds and the result
differs only at device `i`, whose stat has exactly `g`'s fields
replaced by their zero/"Unknown" sentinel (`sentinelAt`); every other
device's stat, and every other field of device `i`, keeps the value its
own query returned. -/
theorem c8_group_isolation (qs : List Queries) (i : ℕ) (g : Group)
    (s : List Stat) (h : getNvidiaStats qs = .ok s) :
    getNvidiaStats (modifyAt (failGroup g) i qs)
      = .ok (modifyAt (sentinelAt g) i s)
  ∧ (∀ j, j ≠ i → (modifyAt (sentinelAt g) i s)[j]? = s[j]?)
  ∧ (modifyAt (sentinelAt g) i s)[i]? = (s[i]?).map (sentinelAt g) :=
  ⟨statsFrom_failAt g qs 0 i s h,
   fun j hj => modifyAt_getElem_ne (sentinelAt g) i j s hj,
   modifyAt_getElem_eq (sentinelAt g) i s⟩

theorem c8_group_isolation_witness :
    getNvidiaStats [qTempOnly, qAllFail] = .ok [stWit0, stWit1]
  ∧ getNvidiaStats (modifyAt (failGroup Group.tempG) 0 [qTempOnly, qAllFail])
      = .ok (modifyAt (sentinelAt Group.tempG) 0 [stWit0, stWit1]) := by
  have h : getNvidiaStats [qTempOnly, qAllFail] = .ok [stWit0, stWit1] := rfl
  exact ⟨h, (c8_group_isolation [qTempOnly, qAllFail] 0 Group.tempG [stWit0, stWit1] h).1⟩

end GpuMonitor
